import Mathlib

/-!
A shallow embedding of the core of the LatteAlbum media server
(`src/rust/src/...`) together with proofs about its catalog store, scan
engine, progress state manager, thumbnail cache and HTTP range handling.

Conventions of the embedding:
* `chrono::NaiveDateTime` is modelled by `NDT`, a pair of a year and a
  position inside that year, ordered lexicographically.  The source only
  compares datetimes and extracts their year, so this is faithful.
* SQL tables are lists of rows; one SQL statement is one pure function on
  the list.  SQL `NULL` is `Option.none`, and comparisons with `NULL`
  are false, as in SQLite.
* Machine integers (`u64`) are `Nat` with explicit saturating operations
  where the source uses them.
* Rust strings are Lean `String`s; the character-level parsing done by
  `get_original` is modelled on `List Char` (a Rust `char` iterator).
-/

/-- Model of `chrono::NaiveDateTime`: a year plus a position within the
year, ordered lexicographically.  The source only ever compares datetimes
and reads their year (`Datelike::year`). -/
structure NDT where
  year : Int
  tick : Int
deriving DecidableEq, Repr

/-- Strict order on datetimes (lexicographic on year then tick). -/
def NDT.ndtLt (a b : NDT) : Bool :=
  a.year < b.year || (a.year == b.year && a.tick < b.tick)

/-- Non-strict order on datetimes. -/
def NDT.ndtLe (a b : NDT) : Bool :=
  a.ndtLt b || a == b

/-- Row of the `media_files` table: the fields of `MediaFile`
(`src/rust/src/db/models.rs`).  `duration` (`f64` in the source, used by
no claim) is modelled by `Rat`. -/
structure MediaFileRow where
  id : String
  file_path : String
  file_name : String
  file_type : String
  mime_type : Option String := none
  file_size : Option Int := none
  width : Option Int := none
  height : Option Int := none
  exif_timestamp : Option NDT := none
  exif_timezone_offset : Option String := none
  create_time : Option NDT := none
  modify_time : Option NDT := none
  last_scanned : Option NDT := none
  camera_make : Option String := none
  camera_model : Option String := none
  lens_model : Option String := none
  exposure_time : Option String := none
  aperture : Option String := none
  iso : Option Int := none
  focal_length : Option String := none
  duration : Option Rat := none
  video_codec : Option String := none
  thumbnail_generated : Bool := false
deriving DecidableEq, Repr

/-- `is_valid_exif_time` (models.rs): year between 1900 and current year + 1. -/
def is_valid_exif_time (now : NDT) (time : NDT) : Bool :=
  1900 ≤ time.year && time.year ≤ now.year + 1

/-- `is_valid_create_time` (models.rs): not in the future. -/
def is_valid_create_time (now : NDT) (time : NDT) : Bool :=
  time.ndtLe now

/-- `MediaFile::get_effective_sort_time` (models.rs): EXIF if valid, else
create time if valid, else modify time. -/
def MediaFileRow.get_effective_sort_time (now : NDT) (f : MediaFileRow) : Option NDT :=
  let restCreate : Option NDT :=
    match f.create_time with
    | some ct => if is_valid_create_time now ct then some ct else f.modify_time
    | none => f.modify_time
  match f.exif_timestamp with
  | some ts => if is_valid_exif_time now ts then some ts else restCreate
  | none => restCreate

/-- `MediaFile::new` (models.rs).  `Uuid::new_v4` is random, so the
generated id is passed in as `genId`; every other field starts empty. -/
def MediaFile.new (genId : String) (file_path file_name file_type : String) : MediaFileRow :=
  { id := genId
    file_path := file_path
    file_name := file_name
    file_type := file_type }

/-! ## Catalog store (`src/rust/src/db/repository.rs`) -/

/-- `slice::chunks` of the Rust standard library: split a list into
consecutive chunks of `n + 1` elements (the source always calls it with a
positive chunk size). -/
def listChunks (n : Nat) : List α → List (List α)
  | [] => []
  | x :: xs => (x :: xs).take (n + 1) :: listChunks n (xs.drop n)
termination_by l => l.length
decreasing_by simp; omega

/-- One SQLite `INSERT OR REPLACE INTO media_files ...` of a single row.
Modelled from the spec: the migrations directory is not under `src/`, so
the table's constraints are taken from spec §6 — `id` is the primary key
and `file_path` is unique.  `INSERT OR REPLACE` drops every row that
conflicts on either constraint and inserts the new row, with
`last_scanned` bound to the statement's `now`. -/
def sqlInsertOrReplace (now : NDT) (table : List MediaFileRow) (f : MediaFileRow) :
    List MediaFileRow :=
  table.filter (fun r => r.id ≠ f.id ∧ r.file_path ≠ f.file_path)
    ++ [{ f with last_scanned := some now }]

/-- `MediaFileRepository::batch_upsert`: multi-row `INSERT OR REPLACE` in
one transaction (the source chunks at 32766 / 23 parameters; row-conflict
semantics are unaffected by the chunk boundaries, so the fold is over the
rows). -/
def batch_upsert (now : NDT) (files : List MediaFileRow) (table : List MediaFileRow) :
    List MediaFileRow :=
  files.foldl (sqlInsertOrReplace now) table

/-- `MediaFileRepository::batch_touch`: set `last_scanned = now` on every
row whose `file_path` is in `paths` (the `UPDATE ... WHERE file_path IN`
statement; chunking does not change which rows are updated because
`UPDATE` is idempotent on disjoint chunks of the `IN` list). -/
def batch_touch (now : NDT) (paths : List String) (table : List MediaFileRow) :
    List MediaFileRow :=
  table.map (fun r =>
    if r.file_path ∈ paths then { r with last_scanned := some now } else r)

/-- SQLite parameter ceiling used throughout `repository.rs`. -/
def MAX_PARAMS : Nat := 32766

/-- `MediaFileRepository::delete_missing` (repository.rs:196-233), acting
on the table.  Empty `existing_paths` runs
`DELETE FROM media_files WHERE last_scanned IS NOT NULL`; otherwise the
path list is chunked at `MAX_PARAMS` and one
`DELETE ... WHERE last_scanned IS NOT NULL AND file_path NOT IN (chunk)`
statement runs per chunk, each against the table left by the previous
statement. -/
def repo_delete_missing (existing_paths : List String) (table : List MediaFileRow) :
    List MediaFileRow :=
  if existing_paths.isEmpty then
    table.filter (fun r => r.last_scanned = none)
  else
    (listChunks (MAX_PARAMS - 1) existing_paths).foldl
      (fun t chunk =>
        t.filter (fun r => r.last_scanned = none ∨ r.file_path ∈ chunk))
      table

/-- Rows deleted by `delete_missing` (the accumulated `rows_affected`). -/
def repo_delete_missing_count (existing_paths : List String) (table : List MediaFileRow) :
    Nat :=
  table.length - (repo_delete_missing existing_paths table).length

/-- `MediaFileRepository::find_by_id`: first row with the given id. -/
def find_by_id (table : List MediaFileRow) (id : String) : Option MediaFileRow :=
  table.find? (fun r => r.id == id)

/-! ## Neighbor query (`MediaFileRepository::find_neighbors`) -/

/-- The SQL text `find_neighbors` (repository.rs:96-118) builds with
`format!`: the format string carries five placeholders and the argument
list is `op, op, order, order, order`, so the final ordering term renders
with the direction keyword twice — `create_time ASC ASC` for the next
query and `create_time DESC DESC` for the previous one.  The
concatenation below reproduces the literal byte for byte, newlines and
indentation included. -/
def find_neighbors_query (before : Bool) : String :=
  let op := if before then "<" else ">"
  let order := if before then "DESC" else "ASC"
  "SELECT * FROM media_files\n             WHERE (exif_timestamp " ++ op
    ++ " ? OR (exif_timestamp IS NULL AND create_time " ++ op
    ++ " ?))\n             ORDER BY CASE WHEN exif_timestamp IS NOT NULL THEN 0 ELSE 1 END, exif_timestamp "
    ++ order ++ " NULLS LAST, create_time " ++ order ++ " " ++ order
    ++ "\n             LIMIT 1"

/-- Whether a character sequence occurs contiguously in a list (the
substring test used to express the grammar check below). -/
def listContainsSeq (pat : List Char) : List Char → Bool
  | [] => pat.isEmpty
  | c :: tail => pat.isPrefixOf (c :: tail) || listContainsSeq pat tail

/-- Whether SQLite accepts this statement's ORDER BY.  SQLite's grammar
(external to the repository, like the `INSERT OR REPLACE` semantics
above) allows an ordering term one direction keyword at most —
`ordering-term := expr [COLLATE name] [ASC|DESC] [NULLS FIRST|LAST]` —
so a rendering that doubles the keyword fails to prepare; the check
looks for the one violation this statement can exhibit. -/
def sqliteAcceptsNeighborsOrderBy (q : String) : Bool :=
  !listContainsSeq "ASC ASC".toList q.toList
    && !listContainsSeq "DESC DESC".toList q.toList

/-- `MediaFileRepository::find_neighbors` (repository.rs:96-118): render
`find_neighbors_query before` and hand it to
`sqlx::query_as(...).fetch_optional`.  Preparation fails on the doubled
direction keyword before any parameter is bound or row is read, so
`fetch_optional` surfaces `Err`; the `.ok` branch is dead for both values
of `before` (see `find_neighbors_always_errors`) — an unparsable
statement has no row semantics to model, so that branch returns the
neutral row-less result.  The `_id` argument is ignored by the source as
well. -/
def find_neighbors (_table : List MediaFileRow) (_id : String) (_sort_time : NDT)
    (before : Bool) : Except Unit (Option MediaFileRow) :=
  if sqliteAcceptsNeighborsOrderBy (find_neighbors_query before) then
    .ok none
  else
    .error ()

/-! ## Scan engine (`src/rust/src/services/scan_service.rs`) -/

/-- `ProcessingResult` (scan_service.rs): outcome of extracting one path. -/
structure ProcessingResult where
  path : String
  success : Option MediaFileRow
  error : Option String := none
deriving DecidableEq, Repr

/-- The chunk loop of `ScanService::batch_write_results_with_skip`
(scan_service.rs:630-666).  `flag i` is the value of the atomic
`is_cancelled` read before chunk `i` is written; the chunk is upserted
first and the loop exits afterwards when the flag was set. -/
def batchWriteLoop (flag : Nat → Bool) (now : NDT) :
    List (List ProcessingResult) → Nat → List MediaFileRow →
    List MediaFileRow × Bool
  | [], _, table => (table, false)
  | chunk :: rest, i, table =>
    let should_cancel := flag i
    let files := chunk.filterMap (fun r => r.success)
    let table' := if files.isEmpty then table else batch_upsert now files table
    if should_cancel then (table', true)
    else batchWriteLoop flag now rest (i + 1) table'

/-- `ScanService::batch_write_results_with_skip` (scan_service.rs:616-677):
write the processed results in chunks of `batch_size`, then touch the
skip list — but only when the loop was not cancelled.  Returns the new
table and the `cancelled` flag the caller receives. -/
def batch_write_results_with_skip (flag : Nat → Bool) (now : NDT) (batch_size : Nat)
    (results : List ProcessingResult) (skip_list : List String)
    (table : List MediaFileRow) : List MediaFileRow × Bool :=
  let (t, cancelled) :=
    batchWriteLoop flag now (listChunks (batch_size - 1) results) 0 table
  if ¬skip_list.isEmpty ∧ ¬cancelled then
    (batch_touch now skip_list t, cancelled)
  else
    (t, cancelled)

/-- `ScanService::delete_missing` (scan_service.rs:800-816): skip the
repository delete entirely when `is_cancelled` is set. -/
def scan_delete_missing (is_cancelled : Bool) (existing_files : List String)
    (table : List MediaFileRow) : List MediaFileRow :=
  if is_cancelled then table
  else repo_delete_missing existing_files table

/-- Phases 4-5 of `ScanService::perform_scan_parallel`
(scan_service.rs:188-227): the write phase observes the cancellation flag
at instants `0, 1, ...` (one per chunk) and the delete phase observes it
at instant `d`; both the cancelled and the completed paths call
`ScanService::delete_missing`, which re-checks the flag itself. -/
def scan_phases_4_5 (flag : Nat → Bool) (d : Nat) (now : NDT) (batch_size : Nat)
    (results : List ProcessingResult) (skip_list : List String)
    (files : List String) (table : List MediaFileRow) : List MediaFileRow :=
  let wr := batch_write_results_with_skip flag now batch_size results skip_list table
  scan_delete_missing (flag d) files wr.1

/-- `ScanService::build_media_file` (scan_service.rs:530-565): start from
`MediaFile::new` (which draws the fresh id `genId`) and copy the stat and
format metadata over. -/
structure MediaMetadata where
  mime_type : Option String := none
  file_size : Option Int := none
  width : Option Int := none
  height : Option Int := none
  exif_timestamp : Option NDT := none
  exif_timezone_offset : Option String := none
  create_time : Option NDT := none
  modify_time : Option NDT := none
  camera_make : Option String := none
  camera_model : Option String := none
  lens_model : Option String := none
  exposure_time : Option String := none
  aperture : Option String := none
  iso : Option Int := none
  focal_length : Option String := none
  duration : Option Rat := none
  video_codec : Option String := none
deriving Repr

/-- `ScanService::build_media_file`. -/
def build_media_file (genId : String) (path file_name file_type : String)
    (file_metadata format_metadata : MediaMetadata) : MediaFileRow :=
  let media_file := MediaFile.new genId path file_name file_type
  { media_file with
    file_size := file_metadata.file_size
    create_time := file_metadata.create_time
    modify_time := file_metadata.modify_time
    mime_type := format_metadata.mime_type
    width := format_metadata.width
    height := format_metadata.height
    exif_timestamp := format_metadata.exif_timestamp
    exif_timezone_offset := format_metadata.exif_timezone_offset
    camera_make := format_metadata.camera_make
    camera_model := format_metadata.camera_model
    lens_model := format_metadata.lens_model
    exposure_time := format_metadata.exposure_time
    aperture := format_metadata.aperture
    iso := format_metadata.iso
    focal_length := format_metadata.focal_length
    duration := format_metadata.duration
    video_codec := format_metadata.video_codec }

/-! ## Progress state manager (`src/rust/src/websocket/scan_state.rs`) -/

/-- `ScanPhase`. -/
inductive ScanPhase where
  | Idle | Collecting | Counting | Processing | Writing | Deleting
  | Completed | Error | Cancelled
deriving DecidableEq, Repr

/-- `ScanState`. -/
structure ScanState where
  phase : ScanPhase := .Idle
  scanning : Bool := false
  total_files : Nat := 0
  success_count : Nat := 0
  failure_count : Nat := 0
  files_to_add : Nat := 0
  files_to_update : Nat := 0
  files_to_delete : Nat := 0
  start_time : Option String := none
deriving DecidableEq, Repr

/-- `ProgressUpdate`.  `Started` carries the `Utc::now().to_rfc3339()`
string the worker would read from the clock. -/
inductive ProgressUpdate where
  | SetPhase (p : ScanPhase)
  | SetTotal (n : Nat)
  | IncrementSuccess
  | IncrementFailure
  | SetFileCounts (add update delete : Nat)
  | ResetCounters
  | Started (nowStr : String)
  | Completed
  | Error
  | Cancelled
deriving DecidableEq, Repr

/-- `ScanProgressMessage` (`src/rust/src/websocket/broadcast.rs`).  The
source renders `progress_percentage` as a two-decimal `f64` string; the
embedding carries the exact ratio `(success + failure) / total` instead
(`0` when `total = 0`), which no claim inspects. -/
structure ScanProgressMessage where
  scanning : Bool
  phase : Option String
  total_files : Nat
  success_count : Nat
  failure_count : Nat
  progress_percentage : Rat
  status : String
  files_to_add : Nat
  files_to_update : Nat
  files_to_delete : Nat
  start_time : Option String
deriving DecidableEq, Repr

/-- `format!("{:?}", phase)` (Rust `Debug` derive). -/
def ScanPhase.debugStr : ScanPhase → String
  | .Idle => "Idle"
  | .Collecting => "Collecting"
  | .Counting => "Counting"
  | .Processing => "Processing"
  | .Writing => "Writing"
  | .Deleting => "Deleting"
  | .Completed => "Completed"
  | .Error => "Error"
  | .Cancelled => "Cancelled"

/-- `ScanStateManager::status_from_phase`. -/
def status_from_phase : ScanPhase → String
  | .Idle => "idle"
  | .Collecting | .Counting | .Processing | .Writing | .Deleting => "progress"
  | .Completed => "completed"
  | .Error => "error"
  | .Cancelled => "cancelled"

/-- Percentage as carried by the embedding: exact ratio, `0` when
`total_files = 0`. -/
def progressRatio (st : ScanState) : Rat :=
  if st.total_files > 0 then
    ((st.success_count + st.failure_count : Nat) : Rat) / (st.total_files : Rat) * 100
  else 0

/-- State the worker resets to after a terminal broadcast
(scan_state.rs:181-191). -/
def ScanState.resetIdle : ScanState :=
  { phase := .Idle, scanning := false, total_files := 0, success_count := 0,
    failure_count := 0, files_to_add := 0, files_to_update := 0,
    files_to_delete := 0, start_time := none }

/-- One iteration of the `ScanStateManager` worker loop
(scan_state.rs:87-194): mutate the state according to the update, decide
whether to broadcast, build the message, and reset to idle after a
terminal broadcast.  Takes the state and `last_progress_reported` and
returns the new state, the new `last_progress_reported` and the emitted
message, if any. -/
def workerStep (interval : Nat) (st : ScanState) (last_progress_reported : Nat)
    (update : ProgressUpdate) : ScanState × Nat × Option ScanProgressMessage :=
  let st1 : ScanState :=
    match update with
    | .SetPhase p => { st with phase := p }
    | .SetTotal n => { st with total_files := n }
    | .IncrementSuccess => { st with success_count := st.success_count + 1 }
    | .IncrementFailure => { st with failure_count := st.failure_count + 1 }
    | .SetFileCounts a u d =>
      { st with files_to_add := a, files_to_update := u, files_to_delete := d }
    | .ResetCounters => { st with success_count := 0, failure_count := 0 }
    | .Started nowStr =>
      { st with scanning := true, start_time := some nowStr,
                success_count := 0, failure_count := 0 }
    | .Completed => { st with scanning := false, phase := .Completed }
    | .Error => { st with scanning := false, phase := .Error }
    | .Cancelled => { st with scanning := false, phase := .Cancelled }
  let processed := st1.success_count + st1.failure_count
  let percentage := progressRatio st1
  let isTerminal :=
    match update with
    | .Completed | .Error | .Cancelled => true
    | _ => false
  let isPhaseish :=
    match update with
    | .SetPhase _ | .Started _ | .Completed | .Error | .Cancelled => true
    | _ => false
  let should_send := isPhaseish || processed - last_progress_reported ≥ interval
  if should_send then
    let msg : ScanProgressMessage :=
      { scanning := st1.scanning
        phase := some st1.phase.debugStr
        total_files := st1.total_files
        success_count := st1.success_count
        failure_count := st1.failure_count
        progress_percentage := percentage
        status := status_from_phase st1.phase
        files_to_add := st1.files_to_add
        files_to_update := st1.files_to_update
        files_to_delete := st1.files_to_delete
        start_time := st1.start_time }
    let st2 := if isTerminal then ScanState.resetIdle else st1
    (st2, processed, some msg)
  else
    (st1, last_progress_reported, none)

/-- `ScanStateManager::get_state`: read the shared state. -/
def get_state (st : ScanState) : ScanState := st

/-- `ScanStateManager::to_progress_message` (scan_state.rs:258-278). -/
def to_progress_message (st : ScanState) : ScanProgressMessage :=
  { scanning := st.scanning
    phase := some st.phase.debugStr
    total_files := st.total_files
    success_count := st.success_count
    failure_count := st.failure_count
    progress_percentage := progressRatio st
    status := status_from_phase st.phase
    files_to_add := st.files_to_add
    files_to_update := st.files_to_update
    files_to_delete := st.files_to_delete
    start_time := st.start_time }

/-! ## Range parsing of `get_original` (`src/rust/src/api/files.rs:256-397`) -/

/-- Rust `str::split(c)` on a character list: always yields at least one
(possibly empty) segment. -/
def splitOnChar (c : Char) : List Char → List (List Char)
  | [] => [[]]
  | x :: xs =>
    let r := splitOnChar c xs
    if x = c then [] :: r
    else
      match r with
      | [] => [[x]]
      | h :: t => (x :: h) :: t

/-- Rust `str::trim` (Unicode whitespace at both ends; `Char.isWhitespace`
agrees with it on ASCII, which is all a `bytes=...` header contains). -/
def trimChars (l : List Char) : List Char :=
  ((l.dropWhile Char.isWhitespace).reverse.dropWhile Char.isWhitespace).reverse

/-- Digits-only part of Rust's `u64::from_str`: non-empty, all ASCII
digits, and the value must fit in 64 bits. -/
def parseDigitsU64 (l : List Char) : Option Nat :=
  if l.isEmpty then none
  else if l.all Char.isDigit then
    let v := l.foldl (fun acc c => acc * 10 + (c.toNat - '0'.toNat)) 0
    if v < 2 ^ 64 then some v else none
  else none

/-- Rust `str::parse::<u64>()`: an optional leading `+` then digits. -/
def parseU64 : List Char → Option Nat
  | '+' :: rest => parseDigitsU64 rest
  | l => parseDigitsU64 l

/-- `u64::saturating_add(1)`. -/
def satAdd1 (x : Nat) : Nat := min (x + 1) (2 ^ 64 - 1)

/-- The response `get_original` produces for an existing record whose path
exists, as far as the status line and content framing are concerned (the
body is streamed by the HTTP layer). -/
inductive OriginalResponse where
  /-- 404 "Empty file" (`file_size == 0`). -/
  | emptyNotFound
  /-- 206 with `Content-Range: bytes start-endPos/fileSize` and
  `Content-Length: contentLength`. -/
  | partialContent (start endPos contentLength fileSize : Nat)
  /-- 416 "Invalid range". -/
  | rangeNotSatisfiable
  /-- 200, streamed (`file_size > 50 MiB`). -/
  | fullStream (fileSize : Nat)
  /-- 200, read into memory. -/
  | fullRead (fileSize : Nat)
deriving DecidableEq, Repr

/-- HTTP status of an `OriginalResponse`. -/
def OriginalResponse.status : OriginalResponse → Nat
  | .emptyNotFound => 404
  | .partialContent _ _ _ _ => 206
  | .rangeNotSatisfiable => 416
  | .fullStream _ => 200
  | .fullRead _ => 200

/-- The full-file branch of `get_original` (files.rs:354-389): stream
files over 50 MiB, read smaller ones into memory; both are 200. -/
def getOriginalFull (file_size : Nat) : OriginalResponse :=
  if file_size > 50 * 1024 * 1024 then .fullStream file_size else .fullRead file_size

/-- The Range handling of `get_original` (files.rs:296-352): parse
`bytes=start-end` from the first comma-separated range, defaulting an
unparsable start to `0` and an unparsable end to `file_size - 1`, clamp
both to `file_size - 1`, and answer 416 only when the clamped start
exceeds the clamped end; any header that does not fit the
`bytes=`/two-part shape falls through to the full-file branch. -/
def get_original_response (range_header : Option (List Char)) (file_size : Nat) :
    OriginalResponse :=
  if file_size = 0 then .emptyNotFound
  else
    match range_header with
    | some range_str =>
      if ("bytes=".toList).isPrefixOf range_str then
        let ranges := splitOnChar ',' (range_str.drop 6)
        match ranges.head? with
        | some range_part =>
          match splitOnChar '-' (trimChars range_part) with
          | [p0, p1] =>
            let start := (parseU64 p0).getD 0
            let endv := (parseU64 p1).getD (file_size - 1)
            let start' := min start (file_size - 1)
            let end' := min endv (file_size - 1)
            if start' > end' then .rangeNotSatisfiable
            else .partialContent start' end' (satAdd1 (end' - start')) file_size
          | _ => getOriginalFull file_size
        | none => getOriginalFull file_size
      else getOriginalFull file_size
    | none => getOriginalFull file_size

/-! ## Thumbnail cache (`src/rust/src/services/cache_service.rs`) -/

/-- Insert into an association list, overwriting any previous binding
(`moka` insert / `fs::write`). -/
def assocPut (k : String) (v : List Nat) (l : List (String × List Nat)) :
    List (String × List Nat) :=
  (k, v) :: l.filter (fun p => p.1 ≠ k)

/-- Remove a binding (`moka` invalidate / `fs::remove_file`). -/
def assocRemove (k : String) (l : List (String × List Nat)) :
    List (String × List Nat) :=
  l.filter (fun p => p.1 ≠ k)

/-- The two tiers of `CacheService`: the `moka` memory cache and the disk
directory, both keyed by `{file_id}_{size}` (capacity and TTL of the
memory tier are not modelled; no claim depends on eviction). -/
structure CacheState where
  memory : List (String × List Nat) := []
  disk : List (String × List Nat) := []
deriving DecidableEq, Repr

/-- `CacheService::get_thumbnail` (cache_service.rs:43-62): memory first,
then disk with promotion into memory. -/
def cache_get_thumbnail (c : CacheState) (file_id size : String) :
    Option (List Nat) × CacheState :=
  let cache_key := file_id ++ "_" ++ size
  match c.memory.lookup cache_key with
  | some data => (some data, c)
  | none =>
    match c.disk.lookup cache_key with
    | some data => (some data, { c with memory := assocPut cache_key data c.memory })
    | none => (none, c)

/-- `CacheService::put_thumbnail_bytes` (cache_service.rs:110-121). -/
def cache_put_thumbnail_bytes (c : CacheState) (file_id size : String)
    (data : List Nat) : CacheState :=
  let cache_key := file_id ++ "_" ++ size
  { memory := assocPut cache_key data c.memory
    disk := assocPut cache_key data c.disk }

/-- `CacheService::delete_thumbnail` (cache_service.rs:124-140): with a
size, drop that one key; with `None`, drop the `_small`, `_medium` and
`_large` keys — and only those — from both tiers. -/
def cache_delete_thumbnail (c : CacheState) (file_id : String)
    (size : Option String) : CacheState :=
  let keys : List String :=
    match size with
    | some s => [file_id ++ "_" ++ s]
    | none => [file_id ++ "_small", file_id ++ "_medium", file_id ++ "_large"]
  keys.foldl
    (fun st key =>
      { memory := assocRemove key st.memory, disk := assocRemove key st.disk })
    c

/-! ## File service (`src/rust/src/services/file_service.rs`) -/

/-- Rust `str::to_lowercase` (agrees with `Char.toLower` on the ASCII
extensions matched below). -/
def rustLower (s : List Char) : List Char := s.map Char.toLower

/-- `file_name.rsplit('.').next()`: the segment after the last dot (the
whole name when there is no dot). -/
def lastDotSegment (file_name : String) : List Char :=
  (splitOnChar '.' file_name.toList).getLastD []

/-- `guess_mime_type` (file_service.rs:183-202). -/
def guess_mime_type (file_name : String) : String :=
  let ext := String.mk (rustLower (lastDotSegment file_name))
  match ext with
  | "jpg" | "jpeg" => "image/jpeg"
  | "png" => "image/png"
  | "gif" => "image/gif"
  | "webp" => "image/webp"
  | "heic" | "heif" => "image/heic"
  | "mp4" => "video/mp4"
  | "mov" => "video/quicktime"
  | "avi" => "video/x-msvideo"
  | "mkv" => "video/x-matroska"
  | _ => "application/octet-stream"

/-- `is_browser_native_format` (file_service.rs:207-219). -/
def is_browser_native_format (file_name : String) : Bool :=
  let ext := String.mk (rustLower (lastDotSegment file_name))
  ext == "jpg" || ext == "jpeg" || ext == "png" || ext == "gif" ||
  ext == "webp" || ext == "avif" || ext == "svg"

/-- `guess_mime_type_from_path` (file_service.rs:222-241) — note the
callers pass the record **id** here, not a file name. -/
def guess_mime_type_from_path (file_name : String) : String :=
  let ext := String.mk (rustLower (lastDotSegment file_name))
  match ext with
  | "jpg" | "jpeg" => "image/jpeg"
  | "png" => "image/png"
  | "gif" => "image/gif"
  | "webp" => "image/webp"
  | "avif" => "image/avif"
  | "svg" => "image/svg+xml"
  | "heic" | "heif" => "image/heic"
  | "tiff" | "tif" => "image/tiff"
  | "bmp" => "image/bmp"
  | _ => "application/octet-stream"

/-- `FileService::generate_fallback_thumbnail` (file_service.rs:128-154):
for an image record whose file exists, serve the raw bytes when they
start with the JPEG SOI or PNG signature. -/
def generate_fallback_thumbnail (db : List MediaFileRow)
    (fs : List (String × List Nat)) (file_id : String) :
    Option (List Nat × String) :=
  match find_by_id db file_id with
  | some file =>
    match fs.lookup file.file_path with
    | some data =>
      if file.file_type = "image" then
        if [255, 216].isPrefixOf data then some (data, "image/jpeg")
        else if [137, 80, 78, 71, 13, 10, 26, 10].isPrefixOf data then
          some (data, "image/png")
        else none
      else none
    | none => none
  | none => none

/-- `FileService::get_thumbnail` (file_service.rs:40-125).  The
filesystem is the association list `fs` (a path is readable iff bound);
`gen path width` models `find_processor` + `generate_thumbnail`, with
`none` covering "no processor", `Ok(None)` and `Err` alike (all three
fall through identically).  Returns the response and the new cache. -/
def fileservice_get_thumbnail (gen : String → Nat → Option (List Nat))
    (db : List MediaFileRow) (fs : List (String × List Nat))
    (cache : CacheState) (file_id : String) (target_width : Nat) :
    Option (List Nat × String) × CacheState :=
  let is_full_size := target_width == 0
  let size_label : String :=
    if is_full_size then "full"
    else if target_width ≤ 300 then "small"
    else if target_width ≤ 450 then "medium"
    else "large"
  let fallback : CacheState → Option (List Nat × String) × CacheState :=
    fun c =>
      if !is_full_size then (generate_fallback_thumbnail db fs file_id, c)
      else (none, c)
  match cache_get_thumbnail cache file_id size_label with
  | (some data, cache') =>
    let mime_type :=
      if is_full_size then guess_mime_type_from_path file_id else "image/jpeg"
    (some (data, mime_type), cache')
  | (none, cache') =>
    match find_by_id db file_id with
    | some file =>
      match fs.lookup file.file_path with
      | some bytes =>
        if is_full_size && is_browser_native_format file.file_name then
          (some (bytes, guess_mime_type file.file_name),
           cache_put_thumbnail_bytes cache' file_id size_label bytes)
        else
          match gen file.file_path target_width with
          | some thumbnail_data =>
            (some (thumbnail_data, "image/jpeg"),
             cache_put_thumbnail_bytes cache' file_id size_label thumbnail_data)
          | none => fallback cache'
      | none => fallback cache'
    | none => fallback cache'

/-! ## Concrete data used by the counterexamples and witnesses -/

/-- Terminal phase named by a terminal `ProgressUpdate` (`Idle` otherwise). -/
def ProgressUpdate.terminalPhase : ProgressUpdate → ScanPhase
  | .Completed => .Completed
  | .Error => .Error
  | .Cancelled => .Cancelled
  | _ => .Idle

/-- A scanned-file list one longer than the SQLite parameter ceiling, so
`delete_missing` issues two chunked `DELETE` statements. -/
def c1Paths : List String := "keep" :: List.replicate MAX_PARAMS "x"

/-- A catalog row for a file the scan did find (`"keep" ∈ c1Paths`) that
has been scanned before. -/
def c1Row : MediaFileRow :=
  { id := "id1", file_path := "keep", file_name := "keep",
    file_type := "image", last_scanned := some ⟨2024, 0⟩ }

/-- Scan instant used by the concrete scan-engine runs. -/
def c3Now : NDT := ⟨2024, 100⟩

/-- The record produced for the one re-processed path of the concrete
cancelled run. -/
def c3Rec : MediaFileRow :=
  { id := "proc-id", file_path := "/m/a.jpg", file_name := "a.jpg",
    file_type := "image", modify_time := some ⟨2024, 50⟩ }

/-- Processing results of the concrete cancelled run: one successful file. -/
def c3Results : List ProcessingResult :=
  [{ path := "/m/a.jpg", success := some c3Rec }]

/-- The catalog row of the skip-list file `"/m/s.jpg"`; its
`last_scanned` is still null. -/
def c3SkipRow : MediaFileRow :=
  { id := "skip-id", file_path := "/m/s.jpg", file_name := "s.jpg",
    file_type := "image", modify_time := some ⟨2024, 10⟩ }

/-- Clock for the neighbor-query examples. -/
def c5Now : NDT := ⟨2025, 0⟩

/-- Record with EXIF time `⟨2024, 10⟩`. -/
def c5RowA : MediaFileRow :=
  { id := "a", file_path := "/m/a.jpg", file_name := "a.jpg",
    file_type := "image", exif_timestamp := some ⟨2024, 10⟩ }

/-- Record with no EXIF time and create time `⟨2024, 11⟩`: its effective
sort time falls back past EXIF. -/
def c5RowB : MediaFileRow :=
  { id := "b", file_path := "/m/b.jpg", file_name := "b.jpg",
    file_type := "image", create_time := some ⟨2024, 11⟩ }

/-- Record with EXIF time `⟨2024, 12⟩`. -/
def c5RowC : MediaFileRow :=
  { id := "c", file_path := "/m/c.jpg", file_name := "c.jpg",
    file_type := "image", exif_timestamp := some ⟨2024, 12⟩ }

/-- Catalog with pairwise-distinct effective sort times 10 < 11 < 12. -/
def c5Table : List MediaFileRow := [c5RowA, c5RowB, c5RowC]

/-- Catalog holding one PNG record whose id is a bare UUID-like string. -/
def c7db : List MediaFileRow :=
  [{ id := "4f2a77aa", file_path := "/p/photo.png", file_name := "photo.png",
     file_type := "image" }]

/-- Filesystem with the PNG's bytes. -/
def c7fs : List (String × List Nat) := [("/p/photo.png", [1, 2, 3])]

/-- Processor that never produces a thumbnail (the passthrough branch
runs before it is consulted). -/
def c7gen : String → Nat → Option (List Nat) := fun _ _ => none

/-- Catalog row as created by an earlier scan of `"/a.jpg"`. -/
def c8Old : MediaFileRow :=
  { id := "old-uuid", file_path := "/a.jpg", file_name := "a.jpg",
    file_type := "image", modify_time := some ⟨2024, 1⟩,
    last_scanned := some ⟨2024, 2⟩ }

/-- Stat metadata of the changed file. -/
def c8FileMd : MediaMetadata :=
  { file_size := some 9, modify_time := some ⟨2024, 5⟩ }

/-- Format metadata of the changed file. -/
def c8FmtMd : MediaMetadata :=
  { mime_type := some "image/jpeg", width := some 10, height := some 20 }

/-- Cache holding a full-size entry for id `"a"` in both tiers plus an
unrelated entry. -/
def c9Cache : CacheState :=
  { memory := [("a_full", [1])]
    disk := [("a_full", [1]), ("b_small", [2])] }

/-! # Theorems -/

/-! ## Helper lemmas -/

/-- Unfolding: chunking an empty list. -/
theorem listChunks_nil (n : Nat) : listChunks n ([] : List α) = [] := by
  rw [listChunks]

/-- Unfolding: chunking a non-empty list takes one chunk and recurses. -/
theorem listChunks_cons (n : Nat) (x : α) (xs : List α) :
    listChunks n (x :: xs) = (x :: xs).take (n + 1) :: listChunks n (xs.drop n) := by
  rw [listChunks]

/-- The single-chunk write list of the concrete cancelled run. -/
theorem c3_chunks : listChunks 99 c3Results = [c3Results] := by
  rw [c3Results, listChunks_cons]
  simp [listChunks_nil]

/-- C3: in `batch_write_results_with_skip`, when the cancellation flag is
observed during the write loop, the `batch_touch(skip_list)` call is
skipped (the guard is `!skip_list.is_empty() && !cancelled`), so the
skip-list row's `last_scanned` stays null — contradicting the claim (and
the source's own comment "Even if cancelled, we still update skip_list
for files that weren't processed").  The third conjunct shows what the
claimed `batch_touch` call would have produced. -/
theorem batch_write_cancelled_skips_touch :
    batch_write_results_with_skip (fun _ => true) c3Now 100 c3Results
        ["/m/s.jpg"] [c3SkipRow]
      = ([c3SkipRow, { c3Rec with last_scanned := some c3Now }], true)
    ∧ c3SkipRow.last_scanned = none
    ∧ batch_touch c3Now ["/m/s.jpg"] [c3SkipRow, { c3Rec with last_scanned := some c3Now }]
      = [{ c3SkipRow with last_scanned := some c3Now },
         { c3Rec with last_scanned := some c3Now }] := by
  refine ⟨?_, by decide, by decide⟩
  have h : (100 : Nat) - 1 = 99 := by norm_num
  simp only [batch_write_results_with_skip, h, c3_chunks]
  decide

/-- C9 counterexample: `delete_thumbnail(id, None)` only drops the
`_small`, `_medium` and `_large` keys, so a cached full-size entry for
the id survives in both tiers — the claim that all four size labels are
removed is false. -/
theorem delete_thumbnail_keeps_full :
    cache_delete_thumbnail c9Cache "a" none = c9Cache
    ∧ c9Cache.memory.lookup ("a" ++ "_" ++ "full") = some [1]
    ∧ c9Cache.disk.lookup ("a" ++ "_" ++ "full") = some [1] := by
  decide

/-- C7 counterexample: a full-size request for a browser-native PNG
returns the original bytes with `image/png` on the first (passthrough)
call, but the second call hits the cache and reports the MIME guessed
from the record id — `application/octet-stream` — so the claim that the
original format's MIME is returned on every request is false. -/
theorem full_png_cache_hit_wrong_mime :
    (fileservice_get_thumbnail c7gen c7db c7fs {} "4f2a77aa" 0).1
      = some ([1, 2, 3], "image/png")
    ∧ (fileservice_get_thumbnail c7gen c7db c7fs
        (fileservice_get_thumbnail c7gen c7db c7fs {} "4f2a77aa" 0).2
        "4f2a77aa" 0).1
      = some ([1, 2, 3], "application/octet-stream")
    ∧ "application/octet-stream" ≠ "image/png" := by
  decide

/-- C8 counterexample: re-processing a changed path builds the record
through `MediaFile::new`, which draws a fresh id, and the upsert replaces
the stored row wholesale — after the rescan the row for `"/a.jpg"` has id
`"new-uuid"`, not the `"old-uuid"` assigned at creation, so the id is not
stable across a rescan that re-processes the path. -/
theorem rescan_replaces_id :
    batch_upsert c3Now
        [build_media_file "new-uuid" "/a.jpg" "a.jpg" "image" c8FileMd c8FmtMd]
        [c8Old]
      = [{ build_media_file "new-uuid" "/a.jpg" "a.jpg" "image" c8FileMd c8FmtMd with
            last_scanned := some c3Now }]
    ∧ (build_media_file "new-uuid" "/a.jpg" "a.jpg" "image" c8FileMd c8FmtMd).id
      = "new-uuid"
    ∧ c8Old.id = "old-uuid"
    ∧ c8Old.file_path = "/a.jpg" := by
  decide

/-- C6 counterexample: on a 10-byte file, the range `bytes=100-200` —
whose start exceeds `file_size - 1` — is clamped to the last byte and
answered 206, not 416, so the claim is false. -/
theorem overlong_range_is_clamped_not_416 :
    get_original_response (some "bytes=100-200".toList) 10
      = .partialContent 9 9 1 10
    ∧ (OriginalResponse.partialContent 9 9 1 10).status = 206 := by
  decide

/-- The two `DELETE` chunks issued for `c1Paths`. -/
theorem c1_chunks :
    listChunks (MAX_PARAMS - 1) c1Paths
      = [("keep" :: List.replicate (MAX_PARAMS - 1) "x"), ["x"]] := by
  rw [c1Paths, listChunks_cons, MAX_PARAMS]
  norm_num [List.take_replicate, List.drop_replicate]
  rw [listChunks_cons]
  simp [listChunks_nil]

/-- C1: `delete_missing` chunks the `NOT IN` list at the SQLite parameter
ceiling, and each chunk's `DELETE` removes every scanned row outside
*that* chunk — so with 32767 paths the second statement deletes the rows
the first one kept.  Here the catalog's only row is for `"keep"`, the
first collected path, yet `delete_missing` empties the table and reports
one deleted row, although the claim says rows whose `file_path` is in
`existing_paths` are never deleted. -/
theorem delete_missing_two_chunks_deletes_kept_row :
    c1Row.file_path ∈ c1Paths
    ∧ c1Row.last_scanned ≠ none
    ∧ repo_delete_missing c1Paths [c1Row] = []
    ∧ repo_delete_missing_count c1Paths [c1Row] = 1 := by
  have h3 : repo_delete_missing c1Paths [c1Row] = [] := by
    rw [repo_delete_missing]
    rw [if_neg (by simp [c1Paths])]
    rw [c1_chunks]
    simp only [List.foldl_cons, List.foldl_nil]
    rw [List.filter_cons, List.filter_nil]
    rw [if_pos (by simp [c1Row])]
    rw [List.filter_cons, List.filter_nil]
    rw [if_neg (by simp [c1Row])]
  refine ⟨by simp [c1Row, c1Paths], by simp [c1Row], h3, ?_⟩
  rw [repo_delete_missing_count, h3]
  rfl

/-- C2: once the cancellation flag has been set (it is monotone within a
scan — only `cancel()` writes `true` and only a new scan clears it), the
delete phase observes it and removes nothing: the catalog after phases
4-5 is exactly what the write phase left, so every record upserted by a
chunk committed before the cancellation was observed is still present. -/
theorem cancelled_scan_never_deletes (flag : Nat → Bool) (d i : Nat) (now : NDT)
    (batch_size : Nat) (results : List ProcessingResult)
    (skip_list files : List String) (table : List MediaFileRow)
    (hmono : ∀ j k : Nat, j ≤ k → flag j = true → flag k = true)
    (hi : flag i = true) (hid : i ≤ d) :
    scan_phases_4_5 flag d now batch_size results skip_list files table
      = (batch_write_results_with_skip flag now batch_size results skip_list table).1
    ∧ ∀ r ∈ (batch_write_results_with_skip flag now batch_size results skip_list table).1,
        r ∈ scan_phases_4_5 flag d now batch_size results skip_list files table := by
  have hd : flag d = true := hmono i d hid hi
  have heq : scan_phases_4_5 flag d now batch_size results skip_list files table
      = (batch_write_results_with_skip flag now batch_size results skip_list table).1 := by
    rw [scan_phases_4_5, hd, scan_delete_missing]
    simp
  exact ⟨heq, fun r hr => heq ▸ hr⟩


/-- Witness for C2 at a concrete cancelled run: the always-set flag, the
one-success result list and a one-row table. -/
theorem cancelled_scan_never_deletes_witness :
    scan_phases_4_5 (fun _ => true) 3 c3Now 100 c3Results ["/m/s.jpg"]
      ["/m/a.jpg", "/m/s.jpg"] [c3SkipRow]
      = (batch_write_results_with_skip (fun _ => true) c3Now 100 c3Results
          ["/m/s.jpg"] [c3SkipRow]).1 := by
  exact (cancelled_scan_never_deletes (fun _ => true) 3 0 c3Now 100 c3Results
    ["/m/s.jpg"] ["/m/a.jpg", "/m/s.jpg"] [c3SkipRow]
    (fun _ _ _ h => h) rfl (by norm_num)).1

/-- C4: processing a terminal update (`Completed`, `Error`, `Cancelled`)
always passes the broadcast gate, emits one message carrying the terminal
phase (with its Debug string and status), and immediately resets the
state to idle with all counters zero and `start_time` cleared, so
`get_state` and `to_progress_message` afterwards observe idle, never a
stale terminal phase. -/
theorem terminal_update_broadcasts_then_resets (interval : Nat) (st : ScanState)
    (last : Nat) (u : ProgressUpdate)
    (hu : u = .Completed ∨ u = .Error ∨ u = .Cancelled) :
    ∃ m : ScanProgressMessage,
      workerStep interval st last u
        = (ScanState.resetIdle, st.success_count + st.failure_count, some m)
      ∧ m.phase = some u.terminalPhase.debugStr
      ∧ m.status = status_from_phase u.terminalPhase
      ∧ m.scanning = false
      ∧ get_state ScanState.resetIdle = ScanState.resetIdle
      ∧ (to_progress_message ScanState.resetIdle).phase = some "Idle"
      ∧ (to_progress_message ScanState.resetIdle).status = "idle"
      ∧ (to_progress_message ScanState.resetIdle).scanning = false := by
  rcases hu with rfl | rfl | rfl <;>
    exact ⟨_, rfl, rfl, rfl, rfl, rfl, rfl, rfl, rfl⟩

/-- Witness for C4: a mid-scan state receiving `Completed`. -/
theorem terminal_update_broadcasts_then_resets_witness :
    ∃ m : ScanProgressMessage,
      workerStep 10
          { phase := .Deleting, scanning := true, total_files := 7,
            success_count := 4, failure_count := 1, files_to_add := 2,
            files_to_update := 3, files_to_delete := 1,
            start_time := some "2024-06-15T10:00:00Z" } 0 .Completed
        = (ScanState.resetIdle, 4 + 1, some m)
      ∧ m.phase = some (ProgressUpdate.Completed).terminalPhase.debugStr
      ∧ m.status = status_from_phase (ProgressUpdate.Completed).terminalPhase
      ∧ m.scanning = false
      ∧ get_state ScanState.resetIdle = ScanState.resetIdle
      ∧ (to_progress_message ScanState.resetIdle).phase = some "Idle"
      ∧ (to_progress_message ScanState.resetIdle).status = "idle"
      ∧ (to_progress_message ScanState.resetIdle).scanning = false :=
  terminal_update_broadcasts_then_resets 10
    { phase := .Deleting, scanning := true, total_files := 7,
      success_count := 4, failure_count := 1, files_to_add := 2,
      files_to_update := 3, files_to_delete := 1,
      start_time := some "2024-06-15T10:00:00Z" } 0 .Completed (Or.inl rfl)

/-- Removing a key makes its lookup miss. -/
theorem assocRemove_lookup_self (k : String) (l : List (String × List Nat)) :
    (assocRemove k l).lookup k = none := by
  induction l with
  | nil => rfl
  | cons p t ih =>
    rcases p with ⟨pk, pv⟩
    by_cases h : pk = k
    · have he : assocRemove k ((pk, pv) :: t) = assocRemove k t := by
        simp [assocRemove, List.filter, h]
      rw [he, ih]
    · have he : assocRemove k ((pk, pv) :: t) = (pk, pv) :: assocRemove k t := by
        simp [assocRemove, List.filter, h]
      rw [he]
      have hb : (k == pk) = false := by
        simp only [beq_eq_false_iff_ne]
        exact fun hk => h hk.symm
      simpa [List.lookup, hb] using ih

/-- Removing one key leaves every other lookup unchanged. -/
theorem assocRemove_lookup_ne (k k' : String) (l : List (String × List Nat))
    (h : k' ≠ k) : (assocRemove k l).lookup k' = l.lookup k' := by
  induction l with
  | nil => rfl
  | cons p t ih =>
    rcases p with ⟨pk, pv⟩
    by_cases hp : pk = k
    · subst hp
      have he : assocRemove pk ((pk, pv) :: t) = assocRemove pk t := by
        simp [assocRemove, List.filter]
      have hb : (k' == pk) = false := by
        simp only [beq_eq_false_iff_ne]
        exact h
      rw [he, ih]
      simp [List.lookup, hb]
    · have he : assocRemove k ((pk, pv) :: t) = (pk, pv) :: assocRemove k t := by
        simp [assocRemove, List.filter, hp]
      rw [he]
      by_cases hq : k' = pk
      · simp [List.lookup, hq]
      · have hb : (k' == pk) = false := by
          simp only [beq_eq_false_iff_ne]
          exact hq
        simp [List.lookup, hb, ih]

/-- Appending different suffixes to the same string gives different strings. -/
theorem string_append_ne (s a b : String) (h : a ≠ b) : s ++ a ≠ s ++ b := by
  intro he
  apply h
  apply String.ext
  have hd : (s ++ a).data = (s ++ b).data := congrArg String.data he
  rw [String.data_append, String.data_append] at hd
  exact List.append_cancel_left hd

/-- C9 amended: `delete_thumbnail(id, None)` removes exactly the
`small`, `medium` and `large` entries of the id from both tiers; every
other key — including the id's `full` entry — is untouched. -/
theorem delete_thumbnail_null_drops_three_sizes (c : CacheState) (file_id : String) :
    ((cache_delete_thumbnail c file_id none).memory.lookup (file_id ++ "_small") = none
     ∧ (cache_delete_thumbnail c file_id none).memory.lookup (file_id ++ "_medium") = none
     ∧ (cache_delete_thumbnail c file_id none).memory.lookup (file_id ++ "_large") = none
     ∧ (cache_delete_thumbnail c file_id none).disk.lookup (file_id ++ "_small") = none
     ∧ (cache_delete_thumbnail c file_id none).disk.lookup (file_id ++ "_medium") = none
     ∧ (cache_delete_thumbnail c file_id none).disk.lookup (file_id ++ "_large") = none)
    ∧ ∀ k : String, k ≠ file_id ++ "_small" → k ≠ file_id ++ "_medium" →
        k ≠ file_id ++ "_large" →
        (cache_delete_thumbnail c file_id none).memory.lookup k = c.memory.lookup k
        ∧ (cache_delete_thumbnail c file_id none).disk.lookup k = c.disk.lookup k := by
  have hsm : file_id ++ "_small" ≠ file_id ++ "_medium" :=
    string_append_ne _ _ _ (by decide)
  have hsl : file_id ++ "_small" ≠ file_id ++ "_large" :=
    string_append_ne _ _ _ (by decide)
  have hml : file_id ++ "_medium" ≠ file_id ++ "_large" :=
    string_append_ne _ _ _ (by decide)
  have hc : cache_delete_thumbnail c file_id none =
      { memory := assocRemove (file_id ++ "_large") (assocRemove (file_id ++ "_medium")
          (assocRemove (file_id ++ "_small") c.memory))
        disk := assocRemove (file_id ++ "_large") (assocRemove (file_id ++ "_medium")
          (assocRemove (file_id ++ "_small") c.disk)) } := rfl
  rw [hc]
  refine ⟨⟨?_, ?_, ?_, ?_, ?_, ?_⟩, ?_⟩
  · rw [assocRemove_lookup_ne _ _ _ hsl, assocRemove_lookup_ne _ _ _ hsm,
      assocRemove_lookup_self]
  · rw [assocRemove_lookup_ne _ _ _ hml, assocRemove_lookup_self]
  · rw [assocRemove_lookup_self]
  · rw [assocRemove_lookup_ne _ _ _ hsl, assocRemove_lookup_ne _ _ _ hsm,
      assocRemove_lookup_self]
  · rw [assocRemove_lookup_ne _ _ _ hml, assocRemove_lookup_self]
  · rw [assocRemove_lookup_self]
  · intro k hks hkm hkl
    constructor
    · rw [assocRemove_lookup_ne _ _ _ hkl, assocRemove_lookup_ne _ _ _ hkm,
        assocRemove_lookup_ne _ _ _ hks]
    · rw [assocRemove_lookup_ne _ _ _ hkl, assocRemove_lookup_ne _ _ _ hkm,
        assocRemove_lookup_ne _ _ _ hks]

/-- Witness for C9 amended on the concrete cache: the three keys of id
`"a"` miss afterwards and the untouched keys `"a_full"`, `"b_small"`
are preserved in both tiers. -/
theorem delete_thumbnail_null_drops_three_sizes_witness :
    ((cache_delete_thumbnail c9Cache "a" none).memory.lookup ("a" ++ "_small") = none
     ∧ (cache_delete_thumbnail c9Cache "a" none).memory.lookup ("a" ++ "_medium") = none
     ∧ (cache_delete_thumbnail c9Cache "a" none).memory.lookup ("a" ++ "_large") = none
     ∧ (cache_delete_thumbnail c9Cache "a" none).disk.lookup ("a" ++ "_small") = none
     ∧ (cache_delete_thumbnail c9Cache "a" none).disk.lookup ("a" ++ "_medium") = none
     ∧ (cache_delete_thumbnail c9Cache "a" none).disk.lookup ("a" ++ "_large") = none)
    ∧ ((cache_delete_thumbnail c9Cache "a" none).memory.lookup "b_small"
         = c9Cache.memory.lookup "b_small"
       ∧ (cache_delete_thumbnail c9Cache "a" none).disk.lookup "b_small"
         = c9Cache.disk.lookup "b_small") :=
  ⟨(delete_thumbnail_null_drops_three_sizes c9Cache "a").1,
   (delete_thumbnail_null_drops_three_sizes c9Cache "a").2 "b_small"
     (by decide) (by decide) (by decide)⟩

/-- C8 amended: across a rescan, `batch_touch` (the skip-list path)
preserves every row's id, but a re-processed path goes through
`build_media_file`, whose record carries the freshly drawn id `g`; the
upsert then replaces the row for that `file_path`, so afterwards the
stored row's id is `g` and the previously stored row is gone whenever its
id differs from `g`. -/
theorem rescan_id_semantics (now : NDT) (table : List MediaFileRow) (r : MediaFileRow)
    (g path name ty : String) (md1 md2 : MediaMetadata) (ps : List String)
    (hr : r ∈ table) (hpath : path = r.file_path) :
    ((batch_touch now ps table).map (fun x => (x.id, x.file_path))
       = table.map (fun x => (x.id, x.file_path)))
    ∧ (build_media_file g path name ty md1 md2).id = g
    ∧ (∀ x ∈ batch_upsert now [build_media_file g path name ty md1 md2] table,
         x.file_path = r.file_path → x.id = g)
    ∧ ({ build_media_file g path name ty md1 md2 with last_scanned := some now }
        ∈ batch_upsert now [build_media_file g path name ty md1 md2] table)
    ∧ (r.id ≠ g → r ∉ batch_upsert now [build_media_file g path name ty md1 md2] table) := by
  have hbu : batch_upsert now [build_media_file g path name ty md1 md2] table
      = sqlInsertOrReplace now table (build_media_file g path name ty md1 md2) := rfl
  have hfid : (build_media_file g path name ty md1 md2).id = g := rfl
  have hfpath : (build_media_file g path name ty md1 md2).file_path = path := rfl
  refine ⟨?_, hfid, ?_, ?_, ?_⟩
  · rw [batch_touch, List.map_map]
    apply List.map_congr_left
    intro x _
    by_cases hx : x.file_path ∈ ps <;> simp [hx]
  · intro x hx hpx
    rw [hbu, sqlInsertOrReplace] at hx
    rcases List.mem_append.1 hx with hx | hx
    · have := (List.mem_filter.1 hx).2
      simp only [decide_eq_true_eq] at this
      exact absurd (hpx.trans (hpath.symm.trans hfpath.symm)) this.2
    · rcases List.mem_singleton.1 hx with rfl
      exact hfid
  · rw [hbu, sqlInsertOrReplace]
    exact List.mem_append.2 (Or.inr (List.mem_singleton.2 rfl))
  · intro hne hmem
    rw [hbu, sqlInsertOrReplace] at hmem
    rcases List.mem_append.1 hmem with hx | hx
    · have := (List.mem_filter.1 hx).2
      simp only [decide_eq_true_eq] at this
      exact this.2 (hfpath.trans hpath).symm
    · rcases List.mem_singleton.1 hx with rfl
      exact hne hfid

/-- Witness for C8 amended at the concrete rescan of `"/a.jpg"`. -/
theorem rescan_id_semantics_witness :
    ((batch_touch c3Now ["/q.jpg"] [c8Old]).map (fun x => (x.id, x.file_path))
       = [c8Old].map (fun x => (x.id, x.file_path)))
    ∧ (build_media_file "new-uuid" "/a.jpg" "a.jpg" "image" c8FileMd c8FmtMd).id
        = "new-uuid"
    ∧ (∀ x ∈ batch_upsert c3Now
          [build_media_file "new-uuid" "/a.jpg" "a.jpg" "image" c8FileMd c8FmtMd]
          [c8Old],
         x.file_path = c8Old.file_path → x.id = "new-uuid")
    ∧ ({ build_media_file "new-uuid" "/a.jpg" "a.jpg" "image" c8FileMd c8FmtMd with
          last_scanned := some c3Now }
        ∈ batch_upsert c3Now
            [build_media_file "new-uuid" "/a.jpg" "a.jpg" "image" c8FileMd c8FmtMd]
            [c8Old])
    ∧ (c8Old.id ≠ "new-uuid" → c8Old ∉ batch_upsert c3Now
          [build_media_file "new-uuid" "/a.jpg" "a.jpg" "image" c8FileMd c8FmtMd]
          [c8Old]) :=
  rescan_id_semantics c3Now [c8Old] c8Old "new-uuid" "/a.jpg" "a.jpg" "image"
    c8FileMd c8FmtMd ["/q.jpg"] (List.mem_singleton.2 rfl) (by decide)

/-- A freshly put key hits in memory. -/
theorem assocPut_lookup_self (k : String) (v : List Nat)
    (l : List (String × List Nat)) : (assocPut k v l).lookup k = some v := by
  simp [assocPut, List.lookup]

/-- C7 amended: for a full-size request on a browser-native record whose
file exists and whose `(id, full)` cache key misses, the passthrough
returns the original bytes with `guess_mime_type(file_name)` — the
original format's MIME for jpg/jpeg/png/gif/webp sources, but
`application/octet-stream` for avif and svg sources, whose extensions
`guess_mime_type` does not map although they are in the browser-native
set; the request after it hits the cache and returns the same bytes, but
with the MIME guessed from the record id
(`guess_mime_type_from_path id`), not from the file name.  The last three
conjuncts pin the mapped/unmapped extensions down. -/
theorem full_native_passthrough (gen : String → Nat → Option (List Nat))
    (db : List MediaFileRow) (fs : List (String × List Nat)) (cache : CacheState)
    (id : String) (row : MediaFileRow) (bytes : List Nat)
    (hfind : find_by_id db id = some row)
    (hbytes : fs.lookup row.file_path = some bytes)
    (hnative : is_browser_native_format row.file_name = true)
    (hm : cache.memory.lookup (id ++ "_" ++ "full") = none)
    (hd : cache.disk.lookup (id ++ "_" ++ "full") = none) :
    (fileservice_get_thumbnail gen db fs cache id 0).1
      = some (bytes, guess_mime_type row.file_name)
    ∧ (fileservice_get_thumbnail gen db fs
        (fileservice_get_thumbnail gen db fs cache id 0).2 id 0).1
      = some (bytes, guess_mime_type_from_path id)
    ∧ guess_mime_type "photo.png" = "image/png"
    ∧ (is_browser_native_format "photo.avif" = true
       ∧ guess_mime_type "photo.avif" = "application/octet-stream")
    ∧ (is_browser_native_format "photo.svg" = true
       ∧ guess_mime_type "photo.svg" = "application/octet-stream") := by
  have hcg : cache_get_thumbnail cache id "full" = (none, cache) := by
    simp only [cache_get_thumbnail, hm, hd]
  have h1 : fileservice_get_thumbnail gen db fs cache id 0
      = (some (bytes, guess_mime_type row.file_name),
         cache_put_thumbnail_bytes cache id "full" bytes) := by
    simp only [fileservice_get_thumbnail, hcg, hfind, hbytes, hnative,
      beq_self_eq_true, if_true, Bool.and_self, ite_true]
  have hcg2 : cache_get_thumbnail (cache_put_thumbnail_bytes cache id "full" bytes)
      id "full" = (some bytes, cache_put_thumbnail_bytes cache id "full" bytes) := by
    simp only [cache_get_thumbnail, cache_put_thumbnail_bytes, assocPut_lookup_self]
  refine ⟨by rw [h1], ?_, by decide, ⟨by decide, by decide⟩, ⟨by decide, by decide⟩⟩
  rw [h1]
  simp only [fileservice_get_thumbnail, hcg2, beq_self_eq_true, if_true, ite_true]

/-- Witness for C7 amended on the concrete PNG record. -/
theorem full_native_passthrough_witness :
    (fileservice_get_thumbnail c7gen c7db c7fs {} "4f2a77aa" 0).1
      = some ([1, 2, 3],
          guess_mime_type (MediaFileRow.file_name
            { id := "4f2a77aa", file_path := "/p/photo.png",
              file_name := "photo.png", file_type := "image" }))
    ∧ (fileservice_get_thumbnail c7gen c7db c7fs
        (fileservice_get_thumbnail c7gen c7db c7fs {} "4f2a77aa" 0).2
        "4f2a77aa" 0).1
      = some ([1, 2, 3], guess_mime_type_from_path "4f2a77aa")
    ∧ guess_mime_type "photo.png" = "image/png"
    ∧ (is_browser_native_format "photo.avif" = true
       ∧ guess_mime_type "photo.avif" = "application/octet-stream")
    ∧ (is_browser_native_format "photo.svg" = true
       ∧ guess_mime_type "photo.svg" = "application/octet-stream") :=
  full_native_passthrough c7gen c7db c7fs {} "4f2a77aa"
    { id := "4f2a77aa", file_path := "/p/photo.png", file_name := "photo.png",
      file_type := "image" }
    [1, 2, 3] (by decide) (by decide) (by decide) (by decide) (by decide)

/-- A successful digit parse contains only ASCII digits. -/
theorem parseDigitsU64_chars (l : List Char) (v : Nat)
    (h : parseDigitsU64 l = some v) : ∀ c ∈ l, c.isDigit = true := by
  unfold parseDigitsU64 at h
  split at h
  · exact absurd h (by simp)
  · split at h
    · next hall =>
      intro c hc
      simpa using List.all_eq_true.1 hall c hc
    · exact absurd h (by simp)

/-- A successful `u64` parse contains only digits and `+`. -/
theorem parseU64_chars (l : List Char) (v : Nat) (h : parseU64 l = some v) :
    ∀ c ∈ l, c.isDigit = true ∨ c = '+' := by
  unfold parseU64 at h
  split at h
  · next rest =>
    intro c hc
    rcases List.mem_cons.1 hc with rfl | hc
    · exact Or.inr rfl
    · exact Or.inl (parseDigitsU64_chars _ _ h c hc)
  · next =>
    intro c hc
    exact Or.inl (parseDigitsU64_chars _ _ h c hc)

/-- A digit is not whitespace. -/
theorem isDigit_not_whitespace (c : Char) (h : c.isDigit = true) :
    c.isWhitespace = false := by
  by_contra hw
  rw [Bool.not_eq_false] at hw
  simp only [Char.isWhitespace, Bool.or_eq_true, decide_eq_true_eq] at hw
  rcases hw with ((rfl | rfl) | rfl) | rfl <;> exact absurd h (by decide)

/-- Splitting on an absent separator yields the whole list. -/
theorem splitOnChar_of_not_mem (c : Char) (l : List Char) (h : c ∉ l) :
    splitOnChar c l = [l] := by
  induction l with
  | nil => rfl
  | cons x xs ih =>
    have hx : ¬x = c := fun he => h (he ▸ List.mem_cons_self x xs)
    have hxs : c ∉ xs := fun hm => h (List.mem_cons_of_mem x hm)
    rw [splitOnChar, ih hxs]
    simp [hx]

/-- Splitting at the first separator occurrence. -/
theorem splitOnChar_append_cons (c : Char) (l₁ l₂ : List Char) (h : c ∉ l₁) :
    splitOnChar c (l₁ ++ c :: l₂) = l₁ :: splitOnChar c l₂ := by
  induction l₁ with
  | nil => simp [splitOnChar]
  | cons x xs ih =>
    have hx : ¬x = c := fun he => h (he ▸ List.mem_cons_self x xs)
    have hxs : c ∉ xs := fun hm => h (List.mem_cons_of_mem x hm)
    rw [List.cons_append, splitOnChar, ih hxs]
    simp [hx]

/-- `dropWhile` is the identity when no element satisfies the predicate. -/
theorem dropWhile_all_false (p : Char → Bool) (l : List Char)
    (h : ∀ c ∈ l, p c = false) : l.dropWhile p = l := by
  cases l with
  | nil => rfl
  | cons x xs => simp [List.dropWhile, h x (List.mem_cons_self x xs)]

/-- `trim` is the identity on whitespace-free text. -/
theorem trimChars_of_no_whitespace (l : List Char)
    (h : ∀ c ∈ l, c.isWhitespace = false) : trimChars l = l := by
  rw [trimChars, dropWhile_all_false _ _ h, dropWhile_all_false, List.reverse_reverse]
  intro c hc
  exact h c (List.mem_reverse.1 hc)

/-- How `get_original` answers a whitespace-free, single
`bytes=start-end` range: defaults (unparsable start becomes 0,
unparsable end becomes `file_size - 1`), clamping to `file_size - 1`,
and 416 exactly when the clamped start exceeds the clamped end. -/
theorem getOriginal_wellformed_range (n : Nat) (sC eC : List Char) (hn : 0 < n)
    (hws : ∀ c ∈ sC, c.isWhitespace = false)
    (hwe : ∀ c ∈ eC, c.isWhitespace = false)
    (hcs : ',' ∉ sC) (hce : ',' ∉ eC) (hds : '-' ∉ sC) (hde : '-' ∉ eC) :
    get_original_response (some ("bytes=".toList ++ (sC ++ '-' :: eC))) n
      = (if min ((parseU64 sC).getD 0) (n - 1) > min ((parseU64 eC).getD (n - 1)) (n - 1)
         then .rangeNotSatisfiable
         else .partialContent (min ((parseU64 sC).getD 0) (n - 1))
                (min ((parseU64 eC).getD (n - 1)) (n - 1))
                (satAdd1 (min ((parseU64 eC).getD (n - 1)) (n - 1)
                  - min ((parseU64 sC).getD 0) (n - 1))) n) := by
  have hpre : ("bytes=".toList).isPrefixOf ("bytes=".toList ++ (sC ++ '-' :: eC)) = true := by
    rw [ List.isPrefixOf_iff_prefix]
    exact List.prefix_append _ _
  have hdrop : ("bytes=".toList ++ (sC ++ '-' :: eC)).drop 6 = sC ++ '-' :: eC := by
    simp
  have hcomma : ',' ∉ sC ++ '-' :: eC := by
    intro hm
    rcases List.mem_append.1 hm with hm | hm
    · exact hcs hm
    · rcases List.mem_cons.1 hm with he | hm
      · exact absurd he (by decide)
      · exact hce hm
  have hnws : ∀ c ∈ sC ++ '-' :: eC, c.isWhitespace = false := by
    intro c hm
    rcases List.mem_append.1 hm with hm | hm
    · exact hws c hm
    · rcases List.mem_cons.1 hm with rfl | hm
      · decide
      · exact hwe c hm
  rw [get_original_response]
  rw [if_neg (by omega)]
  rw [hpre]
  simp only [if_true, hdrop, splitOnChar_of_not_mem _ _ hcomma, List.head?_cons,
    trimChars_of_no_whitespace _ hnws, splitOnChar_append_cons _ _ _ hds,
    splitOnChar_of_not_mem _ _ hde]

/-- C6 amended: `bytes=0-0` answers 206 with one byte; for any parsable
`bytes=start-end`, both bounds are clamped to `file_size - 1` and the
answer is 416 exactly when the clamped start exceeds the clamped end —
equivalently, when `end < start` and `end < file_size - 1`; a start
beyond the file is clamped and served, not rejected. -/
theorem range_clamping_semantics :
    (∀ n : Nat, 0 < n →
       get_original_response (some "bytes=0-0".toList) n
         = .partialContent 0 0 1 n)
    ∧ (∀ (n s e : Nat) (sC eC : List Char), 0 < n →
         parseU64 sC = some s → parseU64 eC = some e →
         get_original_response (some ("bytes=".toList ++ (sC ++ '-' :: eC))) n
           = (if min s (n - 1) > min e (n - 1) then .rangeNotSatisfiable
              else .partialContent (min s (n - 1)) (min e (n - 1))
                     (satAdd1 (min e (n - 1) - min s (n - 1))) n))
    ∧ (∀ n s e : Nat, 0 < n →
         (min s (n - 1) > min e (n - 1) ↔ e < s ∧ e < n - 1)) := by
  have charSide : ∀ (l : List Char) (v : Nat), parseU64 l = some v →
      (∀ c ∈ l, c.isWhitespace = false) ∧ ',' ∉ l ∧ '-' ∉ l := by
    intro l v hv
    have hc := parseU64_chars l v hv
    refine ⟨?_, ?_, ?_⟩
    · intro c hm
      rcases hc c hm with hd | rfl
      · exact isDigit_not_whitespace c hd
      · decide
    · intro hm
      rcases hc ',' hm with hd | hp
      · exact absurd hd (by decide)
      · exact absurd hp (by decide)
    · intro hm
      rcases hc '-' hm with hd | hp
      · exact absurd hd (by decide)
      · exact absurd hp (by decide)
  refine ⟨?_, ?_, ?_⟩
  · intro n hn
    have hlist : ("bytes=0-0".toList)
        = "bytes=".toList ++ (['0'] ++ '-' :: ['0']) := by decide
    rw [hlist, getOriginal_wellformed_range n ['0'] ['0'] hn
      (by decide) (by decide) (by decide) (by decide) (by decide) (by decide)]
    simp [show parseU64 ['0'] = some 0 from by decide, Nat.zero_min, satAdd1]
  · intro n s e sC eC hn hs he
    obtain ⟨hws, hcs, hds⟩ := charSide sC s hs
    obtain ⟨hwe, hce, hde⟩ := charSide eC e he
    rw [getOriginal_wellformed_range n sC eC hn hws hwe hcs hce hds hde, hs, he]
    rfl
  · intro n s e hn
    omega

/-- Witness for C6 amended: `bytes=0-0` on a 10-byte file, `bytes=5-2`
on a 10-byte file (416), and the 416 characterization at `s = 5`,
`e = 2`, `n = 10`. -/
theorem range_clamping_semantics_witness :
    get_original_response (some "bytes=0-0".toList) 10 = .partialContent 0 0 1 10
    ∧ get_original_response (some ("bytes=".toList ++ (['5'] ++ '-' :: ['2']))) 10
        = (if min 5 (10 - 1) > min 2 (10 - 1) then .rangeNotSatisfiable
           else .partialContent (min 5 (10 - 1)) (min 2 (10 - 1))
                  (satAdd1 (min 2 (10 - 1) - min 5 (10 - 1))) 10)
    ∧ (min 5 (10 - 1) > min 2 (10 - 1) ↔ 2 < 5 ∧ 2 < 10 - 1) :=
  ⟨range_clamping_semantics.1 10 (by norm_num),
   range_clamping_semantics.2.1 10 5 2 ['5'] ['2'] (by norm_num)
     (by decide) (by decide),
   range_clamping_semantics.2.2 10 5 2 (by norm_num)⟩

/-- C10: a Range header that does not start with `bytes=`, or whose first
comma-separated range does not split on `-` into exactly two parts, is
silently ignored — the full file is served with status 200, never 416;
within a well-formed `bytes=a-b` shape, an unparsable start defaults to 0
and an unparsable or empty end defaults to `file_size - 1`. -/
theorem malformed_range_ignored :
    (∀ (hdr : List Char) (n : Nat), 0 < n →
       ("bytes=".toList).isPrefixOf hdr = false →
       get_original_response (some hdr) n = getOriginalFull n
       ∧ (getOriginalFull n).status = 200)
    ∧ (∀ (hdr rp : List Char) (n : Nat), 0 < n →
         ("bytes=".toList).isPrefixOf hdr = true →
         (splitOnChar ',' (hdr.drop 6)).head? = some rp →
         (splitOnChar '-' (trimChars rp)).length ≠ 2 →
         get_original_response (some hdr) n = getOriginalFull n
         ∧ (getOriginalFull n).status = 200)
    ∧ (∀ (n : Nat) (sC eC : List Char), 0 < n →
         (∀ c ∈ sC, c.isWhitespace = false) →
         (∀ c ∈ eC, c.isWhitespace = false) →
         ',' ∉ sC → ',' ∉ eC → '-' ∉ sC → '-' ∉ eC →
         get_original_response (some ("bytes=".toList ++ (sC ++ '-' :: eC))) n
           = (if min ((parseU64 sC).getD 0) (n - 1)
                  > min ((parseU64 eC).getD (n - 1)) (n - 1)
              then .rangeNotSatisfiable
              else .partialContent (min ((parseU64 sC).getD 0) (n - 1))
                     (min ((parseU64 eC).getD (n - 1)) (n - 1))
                     (satAdd1 (min ((parseU64 eC).getD (n - 1)) (n - 1)
                       - min ((parseU64 sC).getD 0) (n - 1))) n)) := by
  have hstatus : ∀ n : Nat, (getOriginalFull n).status = 200 := by
    intro n
    unfold getOriginalFull
    split <;> rfl
  refine ⟨?_, ?_, ?_⟩
  · intro hdr n hn hpre
    refine ⟨?_, hstatus n⟩
    rw [get_original_response, if_neg (by omega), hpre]
    rfl
  · intro hdr rp n hn hpre hhead hlen
    refine ⟨?_, hstatus n⟩
    rw [get_original_response, if_neg (by omega), hpre]
    simp only [if_true, hhead]
    rcases hsp : splitOnChar '-' (trimChars rp) with _ | ⟨p0, _ | ⟨p1, _ | ⟨p2, rest⟩⟩⟩
    · rfl
    · rfl
    · exact absurd (by rw [hsp]; rfl) hlen
    · rfl
  · intro n sC eC hn hws hwe hcs hce hds hde
    exact getOriginal_wellformed_range n sC eC hn hws hwe hcs hce hds hde

/-- Witness for C10: `octets=1-2` (no `bytes=`), `bytes=1-2-3` (three
parts) and `bytes=x-7` (unparsable start) on a 10-byte file. -/
theorem malformed_range_ignored_witness :
    (get_original_response (some "octets=1-2".toList) 10 = getOriginalFull 10
     ∧ (getOriginalFull 10).status = 200)
    ∧ (get_original_response (some "bytes=1-2-3".toList) 10 = getOriginalFull 10
       ∧ (getOriginalFull 10).status = 200)
    ∧ get_original_response (some ("bytes=".toList ++ (['x'] ++ '-' :: ['7']))) 10
        = (if min ((parseU64 ['x']).getD 0) (10 - 1)
               > min ((parseU64 ['7']).getD (10 - 1)) (10 - 1)
           then .rangeNotSatisfiable
           else .partialContent (min ((parseU64 ['x']).getD 0) (10 - 1))
                  (min ((parseU64 ['7']).getD (10 - 1)) (10 - 1))
                  (satAdd1 (min ((parseU64 ['7']).getD (10 - 1)) (10 - 1)
                    - min ((parseU64 ['x']).getD 0) (10 - 1))) 10) :=
  ⟨malformed_range_ignored.1 "octets=1-2".toList 10 (by norm_num) (by decide),
   malformed_range_ignored.2.1 "bytes=1-2-3".toList "1-2-3".toList 10
     (by norm_num) (by decide) (by decide) (by decide),
   malformed_range_ignored.2.2 10 ['x'] ['7'] (by norm_num) (by decide)
     (by decide) (by decide) (by decide) (by decide) (by decide)⟩


set_option maxRecDepth 4000 in
/-- C5 counterexample: `find_neighbors` never returns a neighbor at all.
Its `format!` has five placeholders for the arguments
`op, op, order, order, order`, so the final ordering term renders as
`create_time ASC ASC` — a SQLite syntax error — and the statement fails
to prepare: at the claimed input (catalog `[A, B, C]` with
pairwise-distinct effective sort times `10 < 11 < 12`) the call returns
`Err` instead of the record B the claim requires. -/
theorem find_neighbors_errors_not_neighbor :
    find_neighbors c5Table "a" ⟨2024, 10⟩ false = .error ()
    ∧ c5RowA.get_effective_sort_time c5Now = some ⟨2024, 10⟩
    ∧ c5RowB.get_effective_sort_time c5Now = some ⟨2024, 11⟩
    ∧ c5RowC.get_effective_sort_time c5Now = some ⟨2024, 12⟩
    ∧ c5RowB ∈ c5Table
    ∧ NDT.ndtLt ⟨2024, 10⟩ ⟨2024, 11⟩ = true := by
  exact ⟨rfl, by decide, by decide, by decide, by decide, by decide⟩

set_option maxRecDepth 8000 in
/-- C5 amended: every call of `find_neighbors` returns `Err` and no row
is ever produced, whatever the catalog, reference time and direction: the
five-placeholder `format!` renders the final ordering term with a doubled
direction keyword (`create_time ASC ASC` next, `create_time DESC DESC`
previous), which SQLite's grammar rejects, so the statement never
prepares.  The second and third conjuncts pin the two rendered statements
byte for byte; the last two exhibit the offending fragments. -/
theorem find_neighbors_always_errors :
    (∀ (table : List MediaFileRow) (id : String) (sort_time : NDT) (before : Bool),
       find_neighbors table id sort_time before = .error ())
    ∧ find_neighbors_query false
        = "SELECT * FROM media_files\n             WHERE (exif_timestamp > ? OR (exif_timestamp IS NULL AND create_time > ?))\n             ORDER BY CASE WHEN exif_timestamp IS NOT NULL THEN 0 ELSE 1 END, exif_timestamp ASC NULLS LAST, create_time ASC ASC\n             LIMIT 1"
    ∧ find_neighbors_query true
        = "SELECT * FROM media_files\n             WHERE (exif_timestamp < ? OR (exif_timestamp IS NULL AND create_time < ?))\n             ORDER BY CASE WHEN exif_timestamp IS NOT NULL THEN 0 ELSE 1 END, exif_timestamp DESC NULLS LAST, create_time DESC DESC\n             LIMIT 1"
    ∧ listContainsSeq "create_time ASC ASC".toList (find_neighbors_query false).toList = true
    ∧ listContainsSeq "create_time DESC DESC".toList (find_neighbors_query true).toList = true := by
  refine ⟨?_, by decide, by decide, by decide, by decide⟩
  intro table id sort_time before
  cases before <;> rfl
